import Mathlib

/-!
Verification of the RG-flow core of the CUE-AI repository.

The file `src/CUE_AI_SYSTEM.py` is, despite its `.py` extension, a Markdown
README: it contains prose, badges, shell snippets and illustrative Python
fragments inside fenced code blocks, but not a single Python `def` or `class`
statement at module level.  The only algorithmic content it carries is the
system of three RG flow equations displayed at lines 110-115:

  mu dκ/dmu      = A κ − B κ³ + E β_cog α_ent
  mu dβ_cog/dmu  = C β_cog² − D β_cog + F κ α_ent
  mu dα_ent/dmu  = a α_ent − b α_ent² + c κ β_cog

All components of the RG-flow core (FlowField, Integrator, FixedPointFinder,
StabilityClassifier) are therefore modelled from the specification, with real
numbers modelled as exact rationals (ℚ): the spec's floating-point tolerances
become exact rational comparisons, Euclidean norms and distances are compared
through their squares, and IEEE non-finite values (NaN, ±∞) are modelled by an
explicit sum type, since ℚ has no non-finite elements.
-/

namespace CUEAI

/-! ## Facts about the source file itself -/

/-- Number of lines of `src/CUE_AI_SYSTEM.py` (a Markdown README). -/
def sourceLineCount : Nat := 249

/-- The module-level Python symbols defined by a `def` or `class` statement in
`src/CUE_AI_SYSTEM.py`.  The file is Markdown prose; it defines none.  (The
Python snippets shown inside its fenced ```` ``` ````-blocks are illustrative
import/usage examples referring to a `cueai_architect` package that the
repository does not contain; none of them is a definition in this file.) -/
def sourceDefinedSymbols : List String := []

/-! ## Data model

Modelled from the spec (§3): a `CouplingVector` is an ordered triple
(κ, β_cog, α_ent) of finite reals, modelled here as exact rationals. -/

/-- Modelled from the spec: ordered triple (κ, β_cog, α_ent) of finite reals
(§3 "CouplingVector"), with ℝ modelled as ℚ. -/
structure CouplingVector where
  kappa : ℚ
  beta_cog : ℚ
  alpha_ent : ℚ
  deriving DecidableEq

/-- Modelled from the spec: one scalar input component, which is either a
finite real or one of the IEEE non-finite values NaN, +∞, −∞ (§3: "NaN/∞ is an
error state, never silently clamped"). -/
inductive NumVal where
  | fin : ℚ → NumVal
  | nan : NumVal
  | posInf : NumVal
  | negInf : NumVal
  deriving DecidableEq

/-- Returns `true` exactly on finite values. -/
def NumVal.isFinite : NumVal → Bool
  | .fin _ => true
  | _ => false

/-- The finite payload, if any. -/
def NumVal.toFinite : NumVal → Option ℚ
  | .fin q => some q
  | _ => none

/-- Modelled from the spec: a raw caller-supplied input triple whose components
may be non-finite, before domain validation. -/
structure RawVector where
  kappa : NumVal
  beta_cog : NumVal
  alpha_ent : NumVal
  deriving DecidableEq

/-- All three components finite. -/
def RawVector.allFinite (v : RawVector) : Bool :=
  v.kappa.isFinite && v.beta_cog.isFinite && v.alpha_ent.isFinite

/-- Validation: the finite `CouplingVector`, or `none` if any component is
non-finite. -/
def RawVector.toVec (v : RawVector) : Option CouplingVector :=
  match v.kappa.toFinite, v.beta_cog.toFinite, v.alpha_ent.toFinite with
  | some x, some y, some z => some ⟨x, y, z⟩
  | _, _, _ => none

/-- Wrap a finite vector as a raw input. -/
def CouplingVector.toRaw (v : CouplingVector) : RawVector :=
  ⟨.fin v.kappa, .fin v.beta_cog, .fin v.alpha_ent⟩

/-- Modelled from the spec: the nine flow coefficients A, B, E, C, D, F, a, b,
c of the stated flow equations (§3 "ModelParameters"). -/
structure ModelParameters where
  A : ℚ
  B : ℚ
  E : ℚ
  C : ℚ
  D : ℚ
  F : ℚ
  a : ℚ
  b : ℚ
  c : ℚ
  deriving DecidableEq

/-- Modelled from the spec: a `Trajectory` (§3) — the ordered list of
(scale, CouplingVector) samples, plus the `truncated` flag set when
integration halted early at the blow-up threshold (§4.2). -/
structure Trajectory where
  samples : List (ℚ × CouplingVector)
  truncated : Bool
  deriving DecidableEq

/-- Modelled from the spec: error taxonomy (§7).  `invalidInput` is raised on
non-finite input, never silently coerced; `stiffness` carries the last valid
trajectory computed before the failure, so callers can decide whether a
partial result is useful. -/
inductive FlowError where
  | invalidInput : FlowError
  | stiffness : Trajectory → FlowError
  deriving DecidableEq

/-! ## Vector and matrix helpers -/

/-- Componentwise sum. -/
def CouplingVector.add (u v : CouplingVector) : CouplingVector :=
  ⟨u.kappa + v.kappa, u.beta_cog + v.beta_cog, u.alpha_ent + v.alpha_ent⟩

/-- Componentwise difference. -/
def CouplingVector.sub (u v : CouplingVector) : CouplingVector :=
  ⟨u.kappa - v.kappa, u.beta_cog - v.beta_cog, u.alpha_ent - v.alpha_ent⟩

/-- Scalar multiple. -/
def CouplingVector.smul (r : ℚ) (v : CouplingVector) : CouplingVector :=
  ⟨r * v.kappa, r * v.beta_cog, r * v.alpha_ent⟩

/-- Largest absolute value of a component (the ∞-norm). -/
def CouplingVector.maxAbs (v : CouplingVector) : ℚ :=
  max |v.kappa| (max |v.beta_cog| |v.alpha_ent|)

/-- Squared Euclidean norm. -/
def CouplingVector.norm2 (v : CouplingVector) : ℚ :=
  v.kappa * v.kappa + v.beta_cog * v.beta_cog + v.alpha_ent * v.alpha_ent

/-- Squared Euclidean distance between two coupling vectors. -/
def dist2 (u v : CouplingVector) : ℚ :=
  (u.sub v).norm2

/-- A 3×3 rational matrix, row major: entry `mij` sits in row `i`, column `j`. -/
structure Mat3 where
  m00 : ℚ
  m01 : ℚ
  m02 : ℚ
  m10 : ℚ
  m11 : ℚ
  m12 : ℚ
  m20 : ℚ
  m21 : ℚ
  m22 : ℚ
  deriving DecidableEq

/-- Entrywise sum of 3×3 matrices. -/
def Mat3.add (p q : Mat3) : Mat3 :=
  ⟨p.m00 + q.m00, p.m01 + q.m01, p.m02 + q.m02,
   p.m10 + q.m10, p.m11 + q.m11, p.m12 + q.m12,
   p.m20 + q.m20, p.m21 + q.m21, p.m22 + q.m22⟩

/-- Scalar multiple of a 3×3 matrix. -/
def Mat3.smul (r : ℚ) (p : Mat3) : Mat3 :=
  ⟨r * p.m00, r * p.m01, r * p.m02,
   r * p.m10, r * p.m11, r * p.m12,
   r * p.m20, r * p.m21, r * p.m22⟩

/-- Determinant of a 3×3 matrix (cofactor expansion along the first row). -/
def Mat3.det (m : Mat3) : ℚ :=
  m.m00 * (m.m11 * m.m22 - m.m12 * m.m21)
    - m.m01 * (m.m10 * m.m22 - m.m12 * m.m20)
    + m.m02 * (m.m10 * m.m21 - m.m11 * m.m20)

/-! ## FlowField

Modelled from the spec (§4.1); the right-hand side is the system of flow
equations that also appears verbatim in `src/CUE_AI_SYSTEM.py` lines 110-115. -/

namespace FlowField

/-- The RG flow right-hand side d(CouplingVector)/d(log μ), from the flow
equations of `src/CUE_AI_SYSTEM.py` lines 110-115 (= spec §4.1):
dκ = Aκ − Bκ³ + E β_cog α_ent, dβ_cog = C β_cog² − D β_cog + F κ α_ent,
dα_ent = a α_ent − b α_ent² + c κ β_cog. -/
def rhs (p : ModelParameters) (v : CouplingVector) : CouplingVector :=
  ⟨p.A * v.kappa - p.B * v.kappa ^ 3 + p.E * v.beta_cog * v.alpha_ent,
   p.C * v.beta_cog ^ 2 - p.D * v.beta_cog + p.F * v.kappa * v.alpha_ent,
   p.a * v.alpha_ent - p.b * v.alpha_ent ^ 2 + p.c * v.kappa * v.beta_cog⟩

/-- Modelled from the spec: `FlowField.evaluate` (§4.1) — pure evaluation of
the flow right-hand side, failing with `InvalidInputError` if any input
component is non-finite, never silently coercing. -/
def evaluate (p : ModelParameters) (v : RawVector) : Except FlowError CouplingVector :=
  match v.toVec with
  | none => .error .invalidInput
  | some w => .ok (rhs p w)

/-- Modelled from the spec: `FlowField.jacobian` (§4.1) — the analytic
(closed-form) 3×3 Jacobian of `rhs`, with the partial derivatives exactly as
listed in the spec, not a finite-difference approximation. -/
def jacobian (p : ModelParameters) (v : CouplingVector) : Mat3 :=
  ⟨p.A - 3 * p.B * v.kappa ^ 2, p.E * v.alpha_ent, p.E * v.beta_cog,
   p.F * v.alpha_ent, 2 * p.C * v.beta_cog - p.D, p.F * v.kappa,
   p.c * v.beta_cog, p.c * v.kappa, p.a - 2 * p.b * v.alpha_ent⟩

/-- The symmetric (central) finite-difference approximation of the Jacobian of
`rhs` with step `h`: column `i` is `(rhs (v + h eᵢ) − rhs (v − h eᵢ)) / (2h)`.
Used only to validate that `jacobian` consists of the true analytic partials
(spec §8: "matches a finite-difference approximation of `evaluate` to within
O(step²) error"). -/
def centralDiffJacobian (p : ModelParameters) (v : CouplingVector) (h : ℚ) : Mat3 :=
  let colK := CouplingVector.smul (1 / (2 * h))
    ((rhs p (v.add ⟨h, 0, 0⟩)).sub (rhs p (v.sub ⟨h, 0, 0⟩)))
  let colB := CouplingVector.smul (1 / (2 * h))
    ((rhs p (v.add ⟨0, h, 0⟩)).sub (rhs p (v.sub ⟨0, h, 0⟩)))
  let colA := CouplingVector.smul (1 / (2 * h))
    ((rhs p (v.add ⟨0, 0, h⟩)).sub (rhs p (v.sub ⟨0, 0, h⟩)))
  ⟨colK.kappa, colB.kappa, colA.kappa,
   colK.beta_cog, colB.beta_cog, colA.beta_cog,
   colK.alpha_ent, colB.alpha_ent, colA.alpha_ent⟩

/-- The exact second-order error coefficient of the central difference: the
only term of `rhs` of degree ≥ 3 in a single variable is `−B κ³`, whose central
difference overshoots its derivative by exactly `−B h²` in the (0,0) entry. -/
def cubicErrMat (p : ModelParameters) : Mat3 :=
  ⟨-p.B, 0, 0, 0, 0, 0, 0, 0, 0⟩

end FlowField

/-! ## Integrator

Modelled from the spec (§4.2): adaptive-step explicit integration with an
embedded 4th/5th-order Runge–Kutta(–Fehlberg) pair, step halved on rejection
and doubled on acceptance, a blow-up threshold turning divergence into a
`truncated` trajectory, and a minimum step floor turning persistent rejection
into `StiffnessError`. -/

/-- Modelled from the spec: the explicit configuration record of an
integration request (§6): scale interval `[mu0, mu1]`, the error tolerance,
the initial step, the minimum step-size floor, the blow-up threshold, and the
maximum-step budget (§5: cancellation is a caller-supplied budget). -/
structure IntegratorConfig where
  mu0 : ℚ
  mu1 : ℚ
  tol : ℚ
  hInit : ℚ
  hMin : ℚ
  blowUpThreshold : ℚ
  maxSteps : ℕ
  deriving DecidableEq

namespace Integrator

/-- One embedded Runge–Kutta–Fehlberg 4(5) step of size `h` for the autonomous
flow `FlowField.rhs p`: returns the 5th-order solution together with the local
truncation-error estimate (∞-norm of the difference between the embedded
4th- and 5th-order solutions). -/
def rkStep (p : ModelParameters) (y : CouplingVector) (h : ℚ) :
    CouplingVector × ℚ :=
  let f := FlowField.rhs p
  let k1 := f y
  let k2 := f (y.add (CouplingVector.smul h (CouplingVector.smul (1/4) k1)))
  let k3 := f (y.add (CouplingVector.smul h
    ((CouplingVector.smul (3/32) k1).add (CouplingVector.smul (9/32) k2))))
  let k4 := f (y.add (CouplingVector.smul h
    (((CouplingVector.smul (1932/2197) k1).sub
      (CouplingVector.smul (7200/2197) k2)).add
      (CouplingVector.smul (7296/2197) k3))))
  let k5 := f (y.add (CouplingVector.smul h
    ((((CouplingVector.smul (439/216) k1).sub (CouplingVector.smul 8 k2)).add
      (CouplingVector.smul (3680/513) k3)).sub
      (CouplingVector.smul (845/4104) k4))))
  let k6 := f (y.add (CouplingVector.smul h
    (((((CouplingVector.smul (-8/27) k1).add (CouplingVector.smul 2 k2)).sub
      (CouplingVector.smul (3544/2565) k3)).add
      (CouplingVector.smul (1859/4104) k4)).sub
      (CouplingVector.smul (11/40) k5))))
  let y5 := y.add (CouplingVector.smul h
    (((((CouplingVector.smul (16/135) k1).add
      (CouplingVector.smul (6656/12825) k3)).add
      (CouplingVector.smul (28561/56430) k4)).sub
      (CouplingVector.smul (9/50) k5)).add
      (CouplingVector.smul (2/55) k6)))
  let y4 := y.add (CouplingVector.smul h
    ((((CouplingVector.smul (25/216) k1).add
      (CouplingVector.smul (1408/2565) k3)).add
      (CouplingVector.smul (2197/4104) k4)).sub
      (CouplingVector.smul (1/5) k5)))
  (y5, (y5.sub y4).maxAbs)

/-- Whether a proposed state has some coupling magnitude beyond the configured
blow-up threshold (§4.2 divergence policy). -/
def blownUp (cfg : IntegratorConfig) (y : CouplingVector) : Bool :=
  decide (cfg.blowUpThreshold < y.maxAbs)

/-- Modelled from the spec: the adaptive-step main loop (§4.2).  `fuel` is the
remaining step budget, `mu` the current scale, `y` the current couplings, `h`
the current step size, `acc` the accepted samples in reverse order.  Per
iteration: take one embedded RKF45 step of size `min h (mu1 − mu)`; on
acceptance (error estimate ≤ tol) append the sample — unless the new state
exceeds the blow-up threshold, in which case integration halts early with
`truncated := true` and the last finite sample retained; on rejection halve
the step, failing with `StiffnessError` (carrying the trajectory computed so
far) if the halved step would sink below the floor `hMin`. -/
def loop (p : ModelParameters) (cfg : IntegratorConfig) :
    ℕ → ℚ → CouplingVector → ℚ → List (ℚ × CouplingVector) →
    Except FlowError Trajectory
  | 0, _, _, _, acc => .ok ⟨acc.reverse, false⟩
  | fuel + 1, mu, y, h, acc =>
    if cfg.mu1 ≤ mu then .ok ⟨acc.reverse, false⟩
    else
      let hs := min h (cfg.mu1 - mu)
      let step := rkStep p y hs
      if step.2 ≤ cfg.tol then
        if blownUp cfg step.1 then .ok ⟨acc.reverse, true⟩
        else loop p cfg fuel (mu + hs) step.1 (2 * hs) ((mu + hs, step.1) :: acc)
      else
        if hs / 2 < cfg.hMin then .error (.stiffness ⟨acc.reverse, false⟩)
        else loop p cfg fuel mu y (hs / 2) acc

/-- Modelled from the spec: `Integrator` entry point (§4.2, §7) — validates
the initial couplings first (non-finite input fails with `InvalidInputError`
before any stepping occurs), then runs the adaptive loop starting from
`(mu0, y0)`. -/
def integrate (p : ModelParameters) (cfg : IntegratorConfig) (v0 : RawVector) :
    Except FlowError Trajectory :=
  match v0.toVec with
  | none => .error .invalidInput
  | some y0 => loop p cfg cfg.maxSteps cfg.mu0 y0 cfg.hInit [(cfg.mu0, y0)]

end Integrator

/-! ## FixedPointFinder

Modelled from the spec (§4.3): a deterministic grid of seeds over a caller
cuboid plus caller-supplied extra seeds, Newton refinement with the analytic
Jacobian, silent dropping of non-convergent or singular seeds, merge of
near-duplicates below a merge tolerance, and lexicographic output ordering. -/

/-- Modelled from the spec: a `FixedPoint` (§3) — the refined coupling vector
together with the squared residual norm at which it was accepted and the
provenance tag naming the seed that converged to it. -/
structure FixedPoint where
  point : CouplingVector
  residual2 : ℚ
  seed : CouplingVector
  deriving DecidableEq

/-- Modelled from the spec: configuration of a fixed-point search (§4.3, §6):
the cuboid `[lo, hi]`, the per-axis grid subdivision count, caller-supplied
extra seeds, the Newton convergence tolerance (squared residual norm), the
merge tolerance (Euclidean distance; distinct from the convergence tolerance)
and the Newton iteration budget. -/
structure FinderConfig where
  lo : CouplingVector
  hi : CouplingVector
  gridSteps : ℕ
  extraSeeds : List CouplingVector
  convTol2 : ℚ
  mergeTol : ℚ
  maxIter : ℕ
  deriving DecidableEq

namespace FixedPointFinder

/-- Equally spaced grid coordinates on one axis: `n + 1` points from `lo` to
`hi` (just `lo` when `n = 0`). -/
def axisPoints (lo hi : ℚ) (n : ℕ) : List ℚ :=
  if n = 0 then [lo]
  else (List.range (n + 1)).map (fun i => lo + (hi - lo) * i / n)

/-- The deterministic seed grid across the search cuboid (§4.3). -/
def gridSeeds (cfg : FinderConfig) : List CouplingVector :=
  (axisPoints cfg.lo.kappa cfg.hi.kappa cfg.gridSteps).flatMap fun x =>
    (axisPoints cfg.lo.beta_cog cfg.hi.beta_cog cfg.gridSteps).flatMap fun y =>
      (axisPoints cfg.lo.alpha_ent cfg.hi.alpha_ent cfg.gridSteps).map fun z =>
        ⟨x, y, z⟩

/-- Squared residual norm of the flow at a point; a candidate converged when
this is below the configured (squared) convergence tolerance. -/
def res2 (p : ModelParameters) (y : CouplingVector) : ℚ :=
  (FlowField.rhs p y).norm2

/-- One Newton step `y ↦ y − J(y)⁻¹ F(y)`, solved by Cramer's rule with the
analytic Jacobian; `none` when the Jacobian is singular (§4.3: such a seed is
dropped, not an error). -/
def newtonStep (p : ModelParameters) (y : CouplingVector) :
    Option CouplingVector :=
  let J := FlowField.jacobian p y
  let d := J.det
  if d = 0 then none
  else
    let r := FlowField.rhs p y
    let bk := -r.kappa
    let bb := -r.beta_cog
    let ba := -r.alpha_ent
    let dx := Mat3.det ⟨bk, J.m01, J.m02, bb, J.m11, J.m12, ba, J.m21, J.m22⟩
    let dy := Mat3.det ⟨J.m00, bk, J.m02, J.m10, bb, J.m12, J.m20, ba, J.m22⟩
    let dz := Mat3.det ⟨J.m00, J.m01, bk, J.m10, J.m11, bb, J.m20, J.m21, ba⟩
    some (y.add ⟨dx / d, dy / d, dz / d⟩)

/-- Newton refinement of one seed (§4.3): accept as soon as the squared
residual is within tolerance; otherwise iterate, returning `none` when the
iteration budget is exhausted or the Jacobian is singular (the seed is then
dropped silently). -/
def refineSeed (p : ModelParameters) (tol2 : ℚ) :
    ℕ → CouplingVector → Option CouplingVector
  | fuel, y =>
    if res2 p y ≤ tol2 then some y
    else
      match fuel with
      | 0 => none
      | n + 1 =>
        match newtonStep p y with
        | none => none
        | some y' => refineSeed p tol2 n y'

/-- The merge relation used for deduplication (§4.3): two candidates are kept
apart only when their squared Euclidean distance is at least the squared merge
tolerance. -/
def farApart (mergeTol : ℚ) (u v : FixedPoint) : Prop :=
  mergeTol ^ 2 ≤ dist2 u.point v.point

instance farApart.instDecidable (mergeTol : ℚ) :
    DecidableRel (farApart mergeTol) := fun u v =>
  inferInstanceAs (Decidable (mergeTol ^ 2 ≤ dist2 u.point v.point))

/-- Lexicographic order on coupling vectors, coordinate by coordinate
(κ first, then β_cog, then α_ent). -/
def lexLe (u v : CouplingVector) : Prop :=
  u.kappa < v.kappa ∨
    (u.kappa = v.kappa ∧
      (u.beta_cog < v.beta_cog ∨
        (u.beta_cog = v.beta_cog ∧ u.alpha_ent ≤ v.alpha_ent)))

instance lexLe.instDecidable : DecidableRel lexLe := fun u v =>
  inferInstanceAs (Decidable
    (u.kappa < v.kappa ∨
      (u.kappa = v.kappa ∧
        (u.beta_cog < v.beta_cog ∨
          (u.beta_cog = v.beta_cog ∧ u.alpha_ent ≤ v.alpha_ent)))))

/-- The output order of the finder: fixed points sorted lexicographically by
their coupling-vector coordinates (§4.3). -/
def fpLe (x y : FixedPoint) : Prop :=
  lexLe x.point y.point

instance fpLe.instDecidable : DecidableRel fpLe := fun x y =>
  inferInstanceAs (Decidable (lexLe x.point y.point))

instance fpLe.instIsTotal : IsTotal FixedPoint fpLe where
  total x y := by
    unfold fpLe lexLe
    rcases lt_trichotomy x.point.kappa y.point.kappa with h | h | h
    · exact Or.inl (Or.inl h)
    · rcases lt_trichotomy x.point.beta_cog y.point.beta_cog with h2 | h2 | h2
      · exact Or.inl (Or.inr ⟨h, Or.inl h2⟩)
      · rcases le_total x.point.alpha_ent y.point.alpha_ent with h3 | h3
        · exact Or.inl (Or.inr ⟨h, Or.inr ⟨h2, h3⟩⟩)
        · exact Or.inr (Or.inr ⟨h.symm, Or.inr ⟨h2.symm, h3⟩⟩)
      · exact Or.inr (Or.inr ⟨h.symm, Or.inl h2⟩)
    · exact Or.inr (Or.inl h)

instance fpLe.instIsTrans : IsTrans FixedPoint fpLe where
  trans x y z hxy hyz := by
    unfold fpLe lexLe at *
    rcases hxy with h1 | ⟨e1, h1⟩
    · rcases hyz with h2 | ⟨e2, _⟩
      · exact Or.inl (h1.trans h2)
      · exact Or.inl (e2 ▸ h1)
    · rcases hyz with h2 | ⟨e2, h2⟩
      · exact Or.inl (e1 ▸ h2)
      · refine Or.inr ⟨e1.trans e2, ?_⟩
        rcases h1 with h1 | ⟨f1, h1⟩
        · rcases h2 with h2 | ⟨f2, _⟩
          · exact Or.inl (h1.trans h2)
          · exact Or.inl (f2 ▸ h1)
        · rcases h2 with h2 | ⟨f2, h2⟩
          · exact Or.inl (f1 ▸ h2)
          · exact Or.inr ⟨f1.trans f2, h1.trans h2⟩

/-- Modelled from the spec: the `FixedPointFinder` search (§4.3).  Seeds are
the deterministic grid over the cuboid followed by the caller-supplied extra
seeds; each seed is Newton-refined (non-convergent seeds dropped silently and
recorded as `FixedPoint`s with their residual and provenance otherwise); the
refined candidates are merged so that no two survivors lie within the merge
tolerance of each other, and the result is sorted lexicographically. -/
def findFixedPoints (p : ModelParameters) (cfg : FinderConfig) :
    List FixedPoint :=
  let seeds := gridSeeds cfg ++ cfg.extraSeeds
  let cands := seeds.filterMap fun s =>
    (refineSeed p cfg.convTol2 cfg.maxIter s).map fun y =>
      ⟨y, res2 p y, s⟩
  List.insertionSort fpLe (List.pwFilter (farApart cfg.mergeTol) cands)

end FixedPointFinder

/-! ## StabilityClassifier

Modelled from the spec (§4.4): classification of a fixed point from the real
parts of its three Jacobian eigenvalues against a configured noise threshold
ε.  A real part inside the band `[−ε, +ε]` makes the linearization
inconclusive, so the `marginal` verdict takes precedence; outside the band the
point is `stable` (all left of the band), `unstable` (all right of it) or
`saddle` (at least one on each side). -/

/-- Modelled from the spec: the categorical stability label (§4.4). -/
inductive StabilityLabel where
  | stable : StabilityLabel
  | unstable : StabilityLabel
  | saddle : StabilityLabel
  | marginal : StabilityLabel
  deriving DecidableEq

namespace StabilityClassifier

/-- Modelled from the spec: classify a fixed point from the list of real parts
of its Jacobian eigenvalues, with noise threshold `eps` (§4.4). -/
def classify (eps : ℚ) (re : List ℚ) : StabilityLabel :=
  if re.any (fun r => decide (-eps ≤ r) && decide (r ≤ eps)) then .marginal
  else if re.all (fun r => decide (r < -eps)) then .stable
  else if re.all (fun r => decide (eps < r)) then .unstable
  else .saddle

end StabilityClassifier

/-- Characteristic polynomial of a 3×3 matrix evaluated at `x`:
`det (m − x I)`, via the explicit cofactor expansion `Mat3.det`.  The
eigenvalues of `m` are exactly its roots. -/
def Mat3.charPolyAt (m : Mat3) (x : ℚ) : ℚ :=
  Mat3.det ⟨m.m00 - x, m.m01, m.m02,
            m.m10, m.m11 - x, m.m12,
            m.m20, m.m21, m.m22 - x⟩

/-! ## Concrete instances used to witness the theorems below -/

/-- Sample model parameters (A,B,E,C,D,F,a,b,c) = (1,2,3,4,5,6,7,8,9). -/
def pEx : ModelParameters := ⟨1, 2, 3, 4, 5, 6, 7, 8, 9⟩

/-- Sample coupling vector. -/
def vEx : CouplingVector := ⟨2, -1, 3⟩

/-- The all-zero model parameters: every flow derivative is identically 0. -/
def pZero : ModelParameters := ⟨0, 0, 0, 0, 0, 0, 0, 0, 0⟩

/-- Sample integrator configuration: integrate over [0, 1] with tolerance 1,
initial step 1, step floor 1/100, blow-up threshold 1 and budget 5. -/
def cfgEx : IntegratorConfig := ⟨0, 1, 1, 1, 1/100, 1, 5⟩

/-! ## Theorems for the claims -/

/-- C1: the 249-line source file `src/CUE_AI_SYSTEM.py` contains no
implementation of the described RG-flow core: none of `FlowField.evaluate`,
`FlowField.jacobian`, the `Integrator`, the `FixedPointFinder`, the
`StabilityClassifier` or the `FlowSession` orchestrator is defined anywhere in
it (its set of module-level Python definitions is empty). -/
theorem C1_no_implementation_in_source :
    sourceLineCount = 249 ∧
    "FlowField.evaluate" ∉ sourceDefinedSymbols ∧
    "FlowField.jacobian" ∉ sourceDefinedSymbols ∧
    "Integrator" ∉ sourceDefinedSymbols ∧
    "FixedPointFinder" ∉ sourceDefinedSymbols ∧
    "StabilityClassifier" ∉ sourceDefinedSymbols ∧
    "FlowSession" ∉ sourceDefinedSymbols := by
  refine ⟨rfl, ?_, ?_, ?_, ?_, ?_, ?_⟩ <;> simp [sourceDefinedSymbols]

/-- C2: for every finite CouplingVector (κ, β_cog, α_ent), `FlowField.evaluate`
succeeds and its result is exactly the closed-form polynomial right-hand sides
(Aκ − Bκ³ + E β_cog α_ent, C β_cog² − D β_cog + F κ α_ent,
a α_ent − b α_ent² + c κ β_cog) of the stated flow equations; the function is
pure and deterministic by construction. -/
theorem C2_evaluate_closed_form (p : ModelParameters) (v : CouplingVector) :
    FlowField.evaluate p v.toRaw =
      .ok ⟨p.A * v.kappa - p.B * v.kappa ^ 3 + p.E * v.beta_cog * v.alpha_ent,
           p.C * v.beta_cog ^ 2 - p.D * v.beta_cog + p.F * v.kappa * v.alpha_ent,
           p.a * v.alpha_ent - p.b * v.alpha_ent ^ 2 + p.c * v.kappa * v.beta_cog⟩ :=
  rfl

/-- C3: for every finite CouplingVector, `FlowField.jacobian` returns the 3×3
matrix of closed-form analytic partial derivatives of the flow equations
(∂dκ/∂κ = A − 3Bκ², ∂dκ/∂β = Eα_ent, ∂dκ/∂α = Eβ_cog, ∂dβ/∂κ = Fα_ent,
∂dβ/∂β = 2Cβ_cog − D, ∂dβ/∂α = Fκ, ∂dα/∂κ = cβ_cog, ∂dα/∂β = cκ,
∂dα/∂α = a − 2bα_ent), and these are the true partials of `FlowField.rhs`,
not a finite-difference approximation: for every nonzero step `h`, the
symmetric finite-difference Jacobian differs from the analytic one by exactly
`h²` times the constant cubic-term coefficient matrix, i.e. agrees with it to
O(step²). -/
theorem C3_jacobian_analytic_partials (p : ModelParameters) (v : CouplingVector) :
    FlowField.jacobian p v =
      ⟨p.A - 3 * p.B * v.kappa ^ 2, p.E * v.alpha_ent, p.E * v.beta_cog,
       p.F * v.alpha_ent, 2 * p.C * v.beta_cog - p.D, p.F * v.kappa,
       p.c * v.beta_cog, p.c * v.kappa, p.a - 2 * p.b * v.alpha_ent⟩ ∧
    ∀ h : ℚ, h ≠ 0 →
      FlowField.centralDiffJacobian p v h =
        (FlowField.jacobian p v).add
          (Mat3.smul (h ^ 2) (FlowField.cubicErrMat p)) := by
  refine ⟨rfl, fun h hne => ?_⟩
  unfold FlowField.centralDiffJacobian FlowField.rhs FlowField.jacobian
    FlowField.cubicErrMat CouplingVector.add CouplingVector.sub
    CouplingVector.smul Mat3.add Mat3.smul
  simp only [Mat3.mk.injEq]
  refine ⟨?_, ?_, ?_, ?_, ?_, ?_, ?_, ?_, ?_⟩ <;> field_simp <;> ring

/-- Witness for C3 at concrete inputs (p = pEx, v = vEx, h = 1). -/
theorem C3_jacobian_analytic_partials_witness :
    (1 : ℚ) ≠ 0 ∧
    FlowField.centralDiffJacobian pEx vEx 1 =
      (FlowField.jacobian pEx vEx).add
        (Mat3.smul ((1 : ℚ) ^ 2) (FlowField.cubicErrMat pEx)) :=
  ⟨one_ne_zero, (C3_jacobian_analytic_partials pEx vEx).2 1 one_ne_zero⟩

/-- C4: a non-finite component (NaN or ±∞) anywhere in the input makes
`FlowField.evaluate` — and an integration request, for every configuration, so
in particular before any stepping — fail with `InvalidInputError`; the input
is never silently coerced (no `.ok` result is produced). -/
theorem C4_nonfinite_input_rejected (p : ModelParameters)
    (cfg : IntegratorConfig) (v : RawVector) (hv : v.allFinite = false) :
    FlowField.evaluate p v = .error .invalidInput ∧
    Integrator.integrate p cfg v = .error .invalidInput := by
  have hnone : v.toVec = none := by
    rcases v with ⟨k, b, a⟩
    unfold RawVector.allFinite at hv
    rcases k <;> rcases b <;> rcases a <;>
      simp_all [NumVal.isFinite, NumVal.toFinite, RawVector.toVec]
  constructor
  · unfold FlowField.evaluate
    rw [hnone]
  · unfold Integrator.integrate
    rw [hnone]

/-- Witness for C4 at a concrete input with κ = NaN. -/
theorem C4_nonfinite_input_rejected_witness :
    (RawVector.mk .nan (.fin 0) (.fin 0)).allFinite = false ∧
    FlowField.evaluate pEx ⟨.nan, .fin 0, .fin 0⟩ = .error .invalidInput ∧
    Integrator.integrate pEx cfgEx ⟨.nan, .fin 0, .fin 0⟩ =
      .error .invalidInput :=
  ⟨rfl, C4_nonfinite_input_rejected pEx cfgEx ⟨.nan, .fin 0, .fin 0⟩ rfl⟩

/-- C5: whenever an accepted integration step would move some coupling
magnitude beyond the configured blow-up threshold, the Integrator halts early
(the result no longer depends on the remaining budget), returns a Trajectory
marked `truncated := true` whose samples are exactly the previously accepted
ones — the last finite sample is retained and the blown-up state is never
appended — and does not raise any error (the result is `.ok`). -/
theorem C5_blowup_truncates_without_error (p : ModelParameters)
    (cfg : IntegratorConfig) (fuel : ℕ) (mu : ℚ) (y : CouplingVector) (h : ℚ)
    (acc : List (ℚ × CouplingVector)) (step : CouplingVector × ℚ)
    (hstep : step = Integrator.rkStep p y (min h (cfg.mu1 - mu)))
    (hmu : mu < cfg.mu1) (haccept : step.2 ≤ cfg.tol)
    (hblow : Integrator.blownUp cfg step.1 = true) :
    Integrator.loop p cfg (fuel + 1) mu y h acc =
      .ok ⟨acc.reverse, true⟩ := by
  subst hstep
  rw [Integrator.loop]
  rw [if_neg (not_le.mpr hmu)]
  simp only
  rw [if_pos haccept, if_pos hblow]

set_option maxRecDepth 100000

/-- Witness for C5: zero flow parameters, initial state (2,0,0), blow-up
threshold 1; the first accepted step exceeds the threshold, so the loop stops
with the initial sample retained and `truncated = true`. -/
theorem C5_blowup_truncates_without_error_witness :
    (Integrator.rkStep pZero ⟨2, 0, 0⟩ (min 1 (cfgEx.mu1 - 0))).2 ≤ cfgEx.tol ∧
    Integrator.blownUp cfgEx
      (Integrator.rkStep pZero ⟨2, 0, 0⟩ (min 1 (cfgEx.mu1 - 0))).1 = true ∧
    Integrator.loop pZero cfgEx (4 + 1) 0 ⟨2, 0, 0⟩ 1 [(0, ⟨2, 0, 0⟩)] =
      .ok ⟨[(0, ⟨2, 0, 0⟩)], true⟩ :=
  ⟨by with_unfolding_all decide, by with_unfolding_all decide,
    C5_blowup_truncates_without_error pZero cfgEx 4 0 ⟨2, 0, 0⟩ 1
      [(0, ⟨2, 0, 0⟩)] _ rfl (by with_unfolding_all decide)
      (by with_unfolding_all decide) (by with_unfolding_all decide)⟩

/-- C6: whenever adaptive step control rejects a step (error estimate above
tolerance) and the halved step would sink below the minimum step-size floor,
the Integrator fails with `StiffnessError`, and the error carries exactly the
trajectory of samples accepted before the failure. -/
theorem C6_stiffness_error_carries_trajectory (p : ModelParameters)
    (cfg : IntegratorConfig) (fuel : ℕ) (mu : ℚ) (y : CouplingVector) (h : ℚ)
    (acc : List (ℚ × CouplingVector)) (step : CouplingVector × ℚ)
    (hstep : step = Integrator.rkStep p y (min h (cfg.mu1 - mu)))
    (hmu : mu < cfg.mu1) (hreject : ¬ step.2 ≤ cfg.tol)
    (hfloor : min h (cfg.mu1 - mu) / 2 < cfg.hMin) :
    Integrator.loop p cfg (fuel + 1) mu y h acc =
      .error (.stiffness ⟨acc.reverse, false⟩) := by
  subst hstep
  rw [Integrator.loop]
  rw [if_neg (not_le.mpr hmu)]
  simp only
  rw [if_neg hreject, if_pos hfloor]

/-- Witness for C6: the linear flow dκ = κ (A = 1, all other coefficients 0)
from κ = 1 with step 1 has a nonzero embedded-pair error estimate, which
exceeds the tolerance 1/10^8 of this configuration; the halved step 1/2 is
below the floor 1, so integration fails with `StiffnessError` carrying the
initial sample. -/
theorem C6_stiffness_error_carries_trajectory_witness :
    ¬ (Integrator.rkStep ⟨1, 0, 0, 0, 0, 0, 0, 0, 0⟩ ⟨1, 0, 0⟩
        (min 1 ((1 : ℚ) - 0))).2 ≤ (1 / 100000000 : ℚ) ∧
    Integrator.loop ⟨1, 0, 0, 0, 0, 0, 0, 0, 0⟩ ⟨0, 1, 1/100000000, 1, 1, 10, 5⟩
        (4 + 1) 0 ⟨1, 0, 0⟩ 1 [(0, ⟨1, 0, 0⟩)] =
      .error (.stiffness ⟨[(0, ⟨1, 0, 0⟩)], false⟩) :=
  ⟨by with_unfolding_all decide,
    C6_stiffness_error_carries_trajectory ⟨1, 0, 0, 0, 0, 0, 0, 0, 0⟩
      ⟨0, 1, 1/100000000, 1, 1, 10, 5⟩ 4 0 ⟨1, 0, 0⟩ 1 [(0, ⟨1, 0, 0⟩)] _ rfl
      (by with_unfolding_all decide) (by with_unfolding_all decide)
      (by with_unfolding_all decide)⟩

/-- C7: two Integrator runs given the same initial CouplingVector, the same
ModelParameters and the same configuration (tolerances included) produce
identical results — in particular bit-for-bit identical trajectories; the
component contains no randomness (it is a pure function of its inputs). -/
theorem C7_two_run_determinism (p : ModelParameters) (cfg : IntegratorConfig)
    (v0 : RawVector) (r1 r2 : Except FlowError Trajectory)
    (h1 : Integrator.integrate p cfg v0 = r1)
    (h2 : Integrator.integrate p cfg v0 = r2) : r1 = r2 :=
  h1.symm.trans h2

/-- Witness for C7: a concrete completed run (zero flow from the origin over
[0,1]) evaluated twice; both runs produce this exact trajectory. -/
theorem C7_two_run_determinism_witness :
    Except.ok (Trajectory.mk [(0, ⟨0, 0, 0⟩), (1, ⟨0, 0, 0⟩)] false) =
      (Except.ok (Trajectory.mk [(0, ⟨0, 0, 0⟩), (1, ⟨0, 0, 0⟩)] false) :
        Except FlowError Trajectory) :=
  C7_two_run_determinism pZero cfgEx (CouplingVector.toRaw ⟨0, 0, 0⟩) _ _
    (by with_unfolding_all rfl) (by with_unfolding_all rfl)

/-- Counterexample for C8 as stated.  With threshold ε = 1/2 and eigenvalue
real parts (−1, 1, 0) there is at least one real part on each side of ±ε
(−1 < −ε and ε < 1), so the claim requires the label `saddle`; but 0 lies
within [−ε, +ε], the linearization is inconclusive, and the classifier labels
the point `marginal`, not `saddle` — the claim's saddle rule and marginal rule
overlap and cannot both hold. -/
theorem C8_counterexample_saddle_rule :
    ((-1 : ℚ) < -(1/2)) ∧ ((1/2 : ℚ) < 1) ∧
    (-(1/2) : ℚ) ≤ 0 ∧ (0 : ℚ) ≤ 1/2 ∧
    StabilityClassifier.classify (1/2) [-1, 1, 0] = .marginal ∧
    ¬ StabilityClassifier.classify (1/2) [-1, 1, 0] = .saddle := by
  refine ⟨by norm_num, by norm_num, by norm_num, by norm_num, ?_, ?_⟩ <;>
    with_unfolding_all decide

/-- C8 (amended): for every threshold ε > 0 and eigenvalue real parts
(r₁, r₂, r₃), the classifier labels `stable` exactly when all three real parts
are < −ε, `unstable` exactly when all are > +ε, `marginal` exactly when any
real part lies within [−ε, +ε], and `saddle` exactly when there is at least
one real part on each side of ±ε and none lies within [−ε, +ε] (the marginal
verdict takes precedence over the saddle one). -/
theorem C8_classifier_rules_amended (eps r1 r2 r3 : ℚ) (heps : 0 < eps) :
    (StabilityClassifier.classify eps [r1, r2, r3] = .stable ↔
      (r1 < -eps ∧ r2 < -eps ∧ r3 < -eps)) ∧
    (StabilityClassifier.classify eps [r1, r2, r3] = .unstable ↔
      (eps < r1 ∧ eps < r2 ∧ eps < r3)) ∧
    (StabilityClassifier.classify eps [r1, r2, r3] = .marginal ↔
      ((-eps ≤ r1 ∧ r1 ≤ eps) ∨ (-eps ≤ r2 ∧ r2 ≤ eps) ∨
        (-eps ≤ r3 ∧ r3 ≤ eps))) ∧
    (StabilityClassifier.classify eps [r1, r2, r3] = .saddle ↔
      ((r1 < -eps ∨ r2 < -eps ∨ r3 < -eps) ∧
        (eps < r1 ∨ eps < r2 ∨ eps < r3) ∧
        ¬((-eps ≤ r1 ∧ r1 ≤ eps) ∨ (-eps ≤ r2 ∧ r2 ≤ eps) ∨
          (-eps ≤ r3 ∧ r3 ≤ eps)))) := by
  unfold StabilityClassifier.classify
  simp only [List.any_cons, List.any_nil, List.all_cons, List.all_nil,
    Bool.or_eq_true, Bool.and_eq_true, Bool.or_false, Bool.and_true,
    decide_eq_true_eq]
  by_cases hband : (-eps ≤ r1 ∧ r1 ≤ eps) ∨ (-eps ≤ r2 ∧ r2 ≤ eps) ∨
      (-eps ≤ r3 ∧ r3 ≤ eps)
  · rw [if_pos hband]
    refine ⟨⟨fun hc => absurd hc (by simp), fun hs => ?_⟩,
      ⟨fun hc => absurd hc (by simp), fun hu => ?_⟩,
      ⟨fun _ => hband, fun _ => rfl⟩,
      ⟨fun hc => absurd hc (by simp), fun hs => absurd hband hs.2.2⟩⟩
    · rcases hband with ⟨hl, _⟩ | ⟨hl, _⟩ | ⟨hl, _⟩ <;>
        [exact absurd hs.1 (not_lt.mpr hl);
         exact absurd hs.2.1 (not_lt.mpr hl);
         exact absurd hs.2.2 (not_lt.mpr hl)]
    · rcases hband with ⟨_, hr⟩ | ⟨_, hr⟩ | ⟨_, hr⟩ <;>
        [exact absurd hu.1 (not_lt.mpr hr);
         exact absurd hu.2.1 (not_lt.mpr hr);
         exact absurd hu.2.2 (not_lt.mpr hr)]
  · rw [if_neg hband]
    push_neg at hband
    obtain ⟨hb1, hb2, hb3⟩ := hband
    have h1 : r1 < -eps ∨ eps < r1 := by
      by_cases h : -eps ≤ r1
      · exact Or.inr (lt_of_not_le fun hle => absurd (hb1 h) (not_lt.mpr hle))
      · exact Or.inl (lt_of_not_le h)
    have h2 : r2 < -eps ∨ eps < r2 := by
      by_cases h : -eps ≤ r2
      · exact Or.inr (lt_of_not_le fun hle => absurd (hb2 h) (not_lt.mpr hle))
      · exact Or.inl (lt_of_not_le h)
    have h3 : r3 < -eps ∨ eps < r3 := by
      by_cases h : -eps ≤ r3
      · exact Or.inr (lt_of_not_le fun hle => absurd (hb3 h) (not_lt.mpr hle))
      · exact Or.inl (lt_of_not_le h)
    by_cases hst : r1 < -eps ∧ r2 < -eps ∧ r3 < -eps
    · rw [if_pos hst]
      refine ⟨⟨fun _ => hst, fun _ => rfl⟩,
        ⟨fun hc => absurd hc (by simp), fun hu => absurd hu.1 (by linarith [hst.1])⟩,
        ⟨fun hc => absurd hc (by simp), fun hb => ?_⟩,
        ⟨fun hc => absurd hc (by simp), fun hs => ?_⟩⟩
      · rcases hb with ⟨hl, _⟩ | ⟨hl, _⟩ | ⟨hl, _⟩ <;> linarith [hst.1, hst.2.1, hst.2.2]
      · rcases hs.2.1 with hr | hr | hr <;> linarith [hst.1, hst.2.1, hst.2.2]
    · rw [if_neg hst]
      by_cases hun : eps < r1 ∧ eps < r2 ∧ eps < r3
      · rw [if_pos hun]
        refine ⟨⟨fun hc => absurd hc (by simp), fun hs => absurd hs.1 (by linarith [hun.1])⟩,
          ⟨fun _ => hun, fun _ => rfl⟩,
          ⟨fun hc => absurd hc (by simp), fun hb => ?_⟩,
          ⟨fun hc => absurd hc (by simp), fun hs => ?_⟩⟩
        · rcases hb with ⟨_, hr⟩ | ⟨_, hr⟩ | ⟨_, hr⟩ <;> linarith [hun.1, hun.2.1, hun.2.2]
        · rcases hs.1 with hl | hl | hl <;> linarith [hun.1, hun.2.1, hun.2.2]
      · rw [if_neg hun]
        refine ⟨⟨fun hc => absurd hc (by simp), fun hs => absurd hs hst⟩,
          ⟨fun hc => absurd hc (by simp), fun hu => absurd hu hun⟩,
          ⟨fun hc => absurd hc (by simp), fun hb => ?_⟩,
          ⟨fun _ => ⟨?_, ?_, ?_⟩, fun _ => rfl⟩⟩
        · rcases hb with ⟨hl, hr⟩ | ⟨hl, hr⟩ | ⟨hl, hr⟩ <;>
            [rcases h1 with h | h; rcases h2 with h | h; rcases h3 with h | h] <;>
            linarith
        · by_contra hall
          push_neg at hall
          rcases h1 with ha | ha
          · exact absurd ha (not_lt.mpr hall.1)
          rcases h2 with hb' | hb'
          · exact absurd hb' (not_lt.mpr hall.2.1)
          rcases h3 with hcc | hcc
          · exact absurd hcc (not_lt.mpr hall.2.2)
          · exact hun ⟨ha, hb', hcc⟩
        · by_contra hall
          push_neg at hall
          rcases h1 with ha | ha
          swap
          · exact absurd ha (not_lt.mpr hall.1)
          rcases h2 with hb' | hb'
          swap
          · exact absurd hb' (not_lt.mpr hall.2.1)
          rcases h3 with hcc | hcc
          swap
          · exact absurd hcc (not_lt.mpr hall.2.2)
          · exact hst ⟨ha, hb', hcc⟩
        · intro hb
          rcases hb with ⟨hl, hr⟩ | ⟨hl, hr⟩ | ⟨hl, hr⟩ <;>
            [rcases h1 with h | h; rcases h2 with h | h; rcases h3 with h | h] <;>
            linarith

/-- Witness for C8 (amended) at ε = 1/2 and real parts (−1, 1, 1): the
instantiated classification rules, with the classifier labelling the point
`saddle`. -/
theorem C8_classifier_rules_amended_witness :
    (0 : ℚ) < 1/2 ∧
    ((StabilityClassifier.classify (1/2) [-1, 1, 1] = .stable ↔
      ((-1 : ℚ) < -(1/2) ∧ (1 : ℚ) < -(1/2) ∧ (1 : ℚ) < -(1/2))) ∧
    (StabilityClassifier.classify (1/2) [-1, 1, 1] = .unstable ↔
      ((1/2 : ℚ) < -1 ∧ (1/2 : ℚ) < 1 ∧ (1/2 : ℚ) < 1)) ∧
    (StabilityClassifier.classify (1/2) [-1, 1, 1] = .marginal ↔
      ((-(1/2) ≤ (-1 : ℚ) ∧ (-1 : ℚ) ≤ 1/2) ∨
        (-(1/2) ≤ (1 : ℚ) ∧ (1 : ℚ) ≤ 1/2) ∨
        (-(1/2) ≤ (1 : ℚ) ∧ (1 : ℚ) ≤ 1/2))) ∧
    (StabilityClassifier.classify (1/2) [-1, 1, 1] = .saddle ↔
      (((-1 : ℚ) < -(1/2) ∨ (1 : ℚ) < -(1/2) ∨ (1 : ℚ) < -(1/2)) ∧
        ((1/2 : ℚ) < -1 ∨ (1/2 : ℚ) < 1 ∨ (1/2 : ℚ) < 1) ∧
        ¬((-(1/2) ≤ (-1 : ℚ) ∧ (-1 : ℚ) ≤ 1/2) ∨
          (-(1/2) ≤ (1 : ℚ) ∧ (1 : ℚ) ≤ 1/2) ∨
          (-(1/2) ≤ (1 : ℚ) ∧ (1 : ℚ) ≤ 1/2))))) :=
  ⟨by norm_num, C8_classifier_rules_amended (1/2) (-1) 1 1 (by norm_num)⟩

/-- Squared Euclidean distance is symmetric. -/
theorem dist2_comm (u v : CouplingVector) : dist2 u v = dist2 v u := by
  unfold dist2 CouplingVector.sub CouplingVector.norm2
  ring

/-- The merge relation is symmetric. -/
theorem farApart_symm {m : ℚ} {x y : FixedPoint}
    (h : FixedPointFinder.farApart m x y) : FixedPointFinder.farApart m y x := by
  unfold FixedPointFinder.farApart at h ⊢
  rw [dist2_comm]
  exact h

/-- C9: every fixed-point search result is deduplicated — no two returned
FixedPoints lie within the merge tolerance of each other (their squared
Euclidean distance is at least the squared merge tolerance) — and sorted
lexicographically by coupling-vector coordinates; and two runs with identical
parameters, seeds and tolerances return identical lists (same values in the
same order). -/
theorem C9_finder_dedup_sorted_deterministic (p p' : ModelParameters)
    (cfg cfg' : FinderConfig) (hp : p = p') (hcfg : cfg = cfg') :
    (FixedPointFinder.findFixedPoints p cfg).Pairwise
      (FixedPointFinder.farApart cfg.mergeTol) ∧
    List.Sorted FixedPointFinder.fpLe
      (FixedPointFinder.findFixedPoints p cfg) ∧
    FixedPointFinder.findFixedPoints p cfg =
      FixedPointFinder.findFixedPoints p' cfg' := by
  refine ⟨?_, ?_, by rw [hp, hcfg]⟩
  · exact ((List.perm_insertionSort FixedPointFinder.fpLe _).pairwise_iff
      farApart_symm).mpr (List.pairwise_pwFilter _)
  · exact List.sorted_insertionSort FixedPointFinder.fpLe _

/-- The decoupled-scenario parameters A=1, B=1, E=0, C=1, D=1, F=0, a=1, b=1,
c=0 of spec §8: dκ = κ − κ³, dβ_cog = β_cog² − β_cog, dα_ent = α_ent − α_ent². -/
def p10 : ModelParameters := ⟨1, 1, 0, 1, 1, 0, 1, 1, 0⟩

/-- A fixed-point search over the cuboid [0,1]³ with one grid subdivision per
axis (seeds at the 8 corners, the origin among them), no extra seeds, squared
convergence tolerance 10⁻¹², merge tolerance 1/100 and Newton budget 12. -/
def cfg10 : FinderConfig :=
  ⟨⟨0, 0, 0⟩, ⟨1, 1, 1⟩, 1, [], 1/1000000000000, 1/100, 12⟩

/-- Witness for C9, instantiated at the concrete decoupled scenario. -/
theorem C9_finder_dedup_sorted_deterministic_witness :
    (FixedPointFinder.findFixedPoints p10 cfg10).Pairwise
      (FixedPointFinder.farApart cfg10.mergeTol) ∧
    List.Sorted FixedPointFinder.fpLe
      (FixedPointFinder.findFixedPoints p10 cfg10) ∧
    FixedPointFinder.findFixedPoints p10 cfg10 =
      FixedPointFinder.findFixedPoints p10 cfg10 :=
  C9_finder_dedup_sorted_deterministic p10 p10 cfg10 cfg10 rfl rfl

/-- C10: in the decoupled scenario (A=1,B=1,E=0,C=1,D=1,F=0,a=1,b=1,c=0) the
origin is a zero of the flow, the FixedPointFinder finds it, the Jacobian
there is diag(1, −1, 1) whose eigenvalue multiset — read off from the fully
factored characteristic polynomial — is exactly {1, −1, 1}, and the
StabilityClassifier labels the point `saddle`. -/
theorem C10_decoupled_origin_saddle :
    FlowField.rhs p10 ⟨0, 0, 0⟩ = ⟨0, 0, 0⟩ ∧
    (⟨0, 0, 0⟩ : CouplingVector) ∈
      (FixedPointFinder.findFixedPoints p10 cfg10).map FixedPoint.point ∧
    FlowField.jacobian p10 ⟨0, 0, 0⟩ = ⟨1, 0, 0, 0, -1, 0, 0, 0, 1⟩ ∧
    (∀ x : ℚ, (FlowField.jacobian p10 ⟨0, 0, 0⟩).charPolyAt x =
      (1 - x) * (-1 - x) * (1 - x)) ∧
    StabilityClassifier.classify (1/100) [1, -1, 1] = .saddle := by
  refine ⟨by with_unfolding_all rfl, by with_unfolding_all decide,
    by with_unfolding_all rfl, fun x => ?_, by with_unfolding_all decide⟩
  simp only [FlowField.jacobian, p10, Mat3.charPolyAt, Mat3.det]
  ring

end CUEAI
